import Mathlib

/-!
Verification of the go-downloader download engine.

We shallowly embed the engine of `DownloadWithConfig` (and its helper
`doHeadRequest`) together with the inactivity watchdog, as pure Lean
functions over an explicit environment: the HEAD and GET responses are
data, the GET response body is a list of read events, the progress
callback invocations are collected into a trace, and the local file is a
list of bytes.  Machine integers (`int64`) are modelled as `Int` — the
sizes involved never overflow in the modelled scenarios, and the code
performs no wrapping arithmetic on them.
-/

namespace Downloader

/-- The part of Go's `http.Client` that the engine observes or mutates:
its absolute `Timeout` (0 means no timeout, as in Go). -/
structure Client where
  Timeout : Nat
deriving DecidableEq

/-- Model of `Config` from the repository, with the two function-typed fields
replaced by their observable content: the accept predicate's verdict is
supplied by the environment, and `pollConfigured` records whether
`PollFunction` is non-nil (its invocations are collected in a trace). -/
structure Config where
  HttpClient : Client
  DoNotResumeDownload : Bool
  ExtraHeaders : List (String × String)
  DoNotErrorOnNon2xxStatusCode : Bool
  InactivityTimeout : Nat
  PollInterval : Nat
  pollConfigured : Bool
deriving DecidableEq

/-- The state of the local target file: `none` when the file is absent. -/
structure World where
  file : Option (List Nat)
deriving DecidableEq

/-- Model of `os.Stat`: the length of the local file, 0 when the file is absent. -/
def localSizeOf (w : World) : Int :=
  match w.file with
  | none => 0
  | some bs => (bs.length : Int)

/-- The error returned together with a successful read (`io.EOF` or a
genuine failure), mirroring Go's `(n, err) = Read(buff)` convention. -/
inductive ReadErr
| eof
| fail (e : Nat)
deriving DecidableEq

/-- One `Read` call on the response body: the bytes it returns, whether
the subsequent `Write` of those bytes fails, and the error value
returned alongside the data. -/
structure ReadEvent where
  data : List Nat
  writeErr : Option Nat
  readErr : Option ReadErr
deriving DecidableEq

/-- An event consumed while the copy loop runs: either a `Read` on the
body or a poll-timer tick sampling the progress counter. -/
inductive Ev
| read (r : ReadEvent)
| tick
deriving DecidableEq

/-- An error produced inside the copy loop. -/
inductive CopyErr
| write (e : Nat)
| readFail (e : Nat)
deriving DecidableEq

/-- Mutable state of the copy loop: output file content, the shared
`completed` counter, and the trace of poll-callback invocations
`(current, total)` so far. -/
structure LoopState where
  file : List Nat
  completed : Int
  polls : List (Int × Int)
deriving DecidableEq

/-- Result of the copy loop: final state and terminal error (`none` on
normal end-of-stream termination). -/
structure LoopResult where
  st : LoopState
  err : Option CopyErr
deriving DecidableEq

/-- The copy loop of `DownloadWithConfig`: reads chunks, appends them to
the output file, advances `completed`, and returns at the first write
error, at a read error, or at EOF.  Timer ticks sample `completed`
into the poll trace when a poll function is configured. -/
def copyLoop (pollOn : Bool) (sz : Int) : List Ev → LoopState → LoopResult
  | [], st => ⟨st, none⟩
  | Ev.tick :: rest, st =>
      if pollOn then
        copyLoop pollOn sz rest ⟨st.file, st.completed, st.polls ++ [(st.completed, sz)]⟩
      else
        copyLoop pollOn sz rest st
  | Ev.read r :: rest, st =>
      if r.data = [] then
        match r.readErr with
        | some ReadErr.eof => ⟨st, none⟩
        | some (ReadErr.fail e) => ⟨st, some (CopyErr.readFail e)⟩
        | none => copyLoop pollOn sz rest st
      else
        match r.writeErr with
        | some e => ⟨st, some (CopyErr.write e)⟩
        | none =>
          let st' : LoopState :=
            ⟨st.file ++ r.data, st.completed + (r.data.length : Int), st.polls⟩
          match r.readErr with
          | some ReadErr.eof => ⟨st', none⟩
          | some (ReadErr.fail e) => ⟨st', some (CopyErr.readFail e)⟩
          | none => copyLoop pollOn sz rest st'

/-- The HEAD response received by `doHeadRequest`: `ContentLength` is -1
when the server sends no `Content-Length`; `drainErr`/`closeErr` are the
outcomes of draining and closing the body. -/
structure HeadResponse where
  contentLength : Int
  acceptRanges : String
  drainErr : Option Nat
  closeErr : Option Nat
deriving DecidableEq

/-- The GET response: its status code and the read events its body
produces (with poll ticks interleaved). -/
structure GetResponse where
  statusCode : Nat
  events : List Ev
deriving DecidableEq

/-- A network interaction: either a transport failure or a response. -/
inductive Transport (α : Type)
| fail (e : Nat)
| ok (a : α)
deriving DecidableEq

/-- Everything the environment decides during one call:
request-construction failures, transport outcomes, the accept
predicate's verdict (always `none` when no predicate is configured),
and whether opening the output file fails. -/
structure Env where
  headConstructErr : Option Nat
  headTransport : Transport HeadResponse
  acceptResult : Option Nat
  getConstructErr : Option Nat
  getTransport : Transport GetResponse
  openErr : Option Nat
deriving DecidableEq

/-- The classified error returned by `DownloadWithConfig`. -/
inductive DownloadErr
| headSetup (e : Nat)
| headTransport (e : Nat)
| drain (e : Nat)
| closeHead (e : Nat)
| accept (e : Nat)
| getSetup (e : Nat)
| getTransport (e : Nat)
| status (code : Nat)
| openFile (e : Nat)
| write (e : Nat)
| readBody (e : Nat)
deriving DecidableEq

/-- Result of the HEAD probe. -/
inductive HeadResult
| fail (e : DownloadErr)
| ok (h : HeadResponse)
deriving DecidableEq

/-- Observable outcome of `doHeadRequest`: its return value, whether the
body drain was attempted, whether `Body.Close()` was invoked, and the
absolute timeout installed on the (by-value copy of the) HTTP client
before `Do` was called (`none` when `Do` was never reached). -/
structure HeadOutcome where
  result : HeadResult
  drainAttempted : Bool
  closeCalled : Bool
  clientTimeout : Option Nat
deriving DecidableEq

/-- Model of `doHeadRequest` from the source: builds the HEAD request, sets the
client's absolute timeout to the inactivity timeout, performs the call,
then drains and closes the body, returning early on each failure. -/
def doHeadRequest (config : Config) (env : Env) : HeadOutcome :=
  match env.headConstructErr with
  | some e => ⟨HeadResult.fail (DownloadErr.headSetup e), false, false, none⟩
  | none =>
    match env.headTransport with
    | Transport.fail e =>
        ⟨HeadResult.fail (DownloadErr.headTransport e), false, false,
          some config.InactivityTimeout⟩
    | Transport.ok h =>
      match h.drainErr with
      | some e =>
          ⟨HeadResult.fail (DownloadErr.drain e), true, false,
            some config.InactivityTimeout⟩
      | none =>
        match h.closeErr with
        | some e =>
            ⟨HeadResult.fail (DownloadErr.closeHead e), true, true,
              some config.InactivityTimeout⟩
        | none => ⟨HeadResult.ok h, true, true, some config.InactivityTimeout⟩

/-- File-open mode chosen for the output file. -/
inductive OpenMode
| append
| createTruncate
deriving DecidableEq

/-- Observable outcome of one `DownloadWithConfig` call. -/
structure Outcome where
  result : Option DownloadErr
  file : Option (List Nat)
  polls : List (Int × Int)
  getIssued : Bool
  getRange : Option String
  openMode : Option OpenMode
  startOffset : Int
  finalCompleted : Int
  headClientTimeout : Option Nat
  getClientTimeout : Option Nat
  headDrainAttempted : Bool
  headCloseCalled : Bool
deriving DecidableEq

/-- Outcome of a return before any GET request was issued. -/
def earlyOutcome (w : World) (ho : HeadOutcome) (e : DownloadErr) : Outcome :=
  ⟨some e, w.file, [], false, none, none, 0, 0, ho.clientTimeout, none,
    ho.drainAttempted, ho.closeCalled⟩

/-- Outcome of a return after the GET request was issued but before the
output file was opened. -/
def preOpenOutcome (w : World) (config : Config) (ho : HeadOutcome)
    (rangeHeader : Option String) (completed : Int) (e : DownloadErr) : Outcome :=
  ⟨some e, w.file, [], true, rangeHeader, none, completed, completed,
    ho.clientTimeout, some config.HttpClient.Timeout,
    ho.drainAttempted, ho.closeCalled⟩

/-- The transfer phase: open the output file (append keeps the existing
content, create+truncate starts from empty), send the initial progress
update, run the copy loop, and send the final progress update. -/
def runTransfer (w : World) (config : Config) (ho : HeadOutcome)
    (remoteSize completed : Int) (resume : Bool) (rangeHeader : Option String)
    (events : List Ev) : Outcome :=
  let mode := if resume then OpenMode.append else OpenMode.createTruncate
  let startFile := if resume then w.file.getD [] else []
  let initPolls := if config.pollConfigured then [(completed, remoteSize)] else []
  let lr := copyLoop config.pollConfigured remoteSize events
    ⟨startFile, completed, initPolls⟩
  let finalPolls :=
    if config.pollConfigured then lr.st.polls ++ [(lr.st.completed, remoteSize)]
    else lr.st.polls
  ⟨lr.err.map (fun ce => match ce with
      | CopyErr.write e => DownloadErr.write e
      | CopyErr.readFail e => DownloadErr.readBody e),
    some lr.st.file, finalPolls, true, rangeHeader, some mode,
    completed, lr.st.completed, ho.clientTimeout,
    some config.HttpClient.Timeout, ho.drainAttempted, ho.closeCalled⟩

/-- The GET phase: build the request (setting the `Range` header when
resuming), perform it, check the status code, open the output file and
hand over to the transfer phase. -/
def getStage (w : World) (config : Config) (ho : HeadOutcome)
    (remoteSize completed : Int) (resume : Bool) (env : Env) : Outcome :=
  match env.getConstructErr with
  | some e => earlyOutcome w ho (DownloadErr.getSetup e)
  | none =>
    let rangeHeader : Option String :=
      if resume then some ("bytes=" ++ toString completed ++ "-") else none
    match env.getTransport with
    | Transport.fail e =>
        preOpenOutcome w config ho rangeHeader completed
          (DownloadErr.getTransport e)
    | Transport.ok resp =>
      if config.DoNotErrorOnNon2xxStatusCode = false ∧
          resp.statusCode ≠ 200 ∧ resp.statusCode ≠ 206 then
        preOpenOutcome w config ho rangeHeader completed
          (DownloadErr.status resp.statusCode)
      else
        match env.openErr with
        | some e =>
            preOpenOutcome w config ho rangeHeader completed
              (DownloadErr.openFile e)
        | none => runTransfer w config ho remoteSize completed resume
            rangeHeader resp.events

/-- Model of `DownloadWithConfig` from the source, as a pure function from the
local file state, the configuration and the environment to the
observable outcome. -/
def DownloadWithConfig (w : World) (config : Config) (env : Env) : Outcome :=
  let clientCanResume : Bool := !config.DoNotResumeDownload
  let localSize := localSizeOf w
  let ho := doHeadRequest config env
  match ho.result with
  | HeadResult.fail e => earlyOutcome w ho e
  | HeadResult.ok h =>
    let remoteSize := h.contentLength
    let serverCanResume : Bool :=
      (h.acceptRanges == "bytes") && !(remoteSize == -1)
    match env.acceptResult with
    | some e => earlyOutcome w ho (DownloadErr.accept e)
    | none =>
      if clientCanResume && (localSize == remoteSize) then
        -- Size matches: assume the file is already downloaded
        ⟨none, w.file,
          (if config.pollConfigured then [(remoteSize, remoteSize)] else []),
          false, none, none, remoteSize, remoteSize, ho.clientTimeout, none,
          ho.drainAttempted, ho.closeCalled⟩
      else
        let completed : Int :=
          if clientCanResume && decide (localSize < remoteSize) then localSize
          else 0
        let resumeDownload : Bool :=
          clientCanResume && serverCanResume && decide (0 < completed)
        getStage w config ho remoteSize completed resumeDownload env

/-- The cause recorded by `context.CancelCauseFunc`: `nil` for an
orderly `Cancel`, `deadlineExceeded` (`os.ErrDeadlineExceeded`) when the
inactivity timer fires. -/
inductive Cause
| nil
| deadlineExceeded
deriving DecidableEq

/-- The watchdog from `watchdog.go`: whether a timer object exists,
whether it is currently armed and with how much time remaining, the
configured timeout, and the cause the merged context was cancelled with
(`none` while the context is alive). -/
structure Watchdog where
  timerExists : Bool
  timerArmed : Bool
  timerRemaining : Nat
  timeout : Nat
  cancelledCause : Option Cause
deriving DecidableEq

/-- Model of `newWatchdog`: a timer is created (via `time.AfterFunc`, hence
armed) only when the timeout is positive. -/
def newWatchdog (timeout : Nat) : Watchdog :=
  if 0 < timeout then ⟨true, true, timeout, timeout, none⟩
  else ⟨false, false, 0, timeout, none⟩

/-- Model of `context.CancelCauseFunc` semantics: only the first cancellation
records its cause; later calls are no-ops. -/
def Watchdog.cancelCause (wd : Watchdog) (c : Cause) : Watchdog :=
  match wd.cancelledCause with
  | some _ => wd
  | none => ⟨wd.timerExists, wd.timerArmed, wd.timerRemaining, wd.timeout, some c⟩

/-- Model of `watchdog.Kick`: reset the timer to the full configured duration
when the timeout is positive, otherwise do nothing. -/
def Watchdog.Kick (wd : Watchdog) : Watchdog :=
  if 0 < wd.timeout then
    ⟨wd.timerExists, true, wd.timeout, wd.timeout, wd.cancelledCause⟩
  else wd

/-- The timer firing: the `time.AfterFunc` callback runs (the timer is
no longer armed) and cancels the context with `os.ErrDeadlineExceeded`
as the cause. -/
def Watchdog.fire (wd : Watchdog) : Watchdog :=
  Watchdog.cancelCause ⟨wd.timerExists, false, 0, wd.timeout, wd.cancelledCause⟩
    Cause.deadlineExceeded

/-- Model of `watchdog.Cancel`: stop the timer when one exists, then cancel the
context with a `nil` cause. -/
def Watchdog.Cancel (wd : Watchdog) : Watchdog :=
  Watchdog.cancelCause
    (if 0 < wd.timeout then
      ⟨wd.timerExists, false, wd.timerRemaining, wd.timeout, wd.cancelledCause⟩
    else wd)
    Cause.nil

end Downloader

namespace Downloader

/-- C8: the watchdog's timer exists and is armed iff the configured
timeout is positive; `Kick` resets the timer to the full duration and is
a no-op when the timeout is zero; when the timer fires it cancels the
context with a deadline-exceeded cause; `Cancel` stops the timer and
cancels the context with a nil cause. -/
theorem c8_watchdog (t : Nat) (wd : Watchdog) :
    ((newWatchdog t).timerExists = true ↔ 0 < t) ∧
    ((newWatchdog t).timerArmed = true ↔ 0 < t) ∧
    (0 < wd.timeout →
      wd.Kick = ⟨wd.timerExists, true, wd.timeout, wd.timeout, wd.cancelledCause⟩) ∧
    (wd.timeout = 0 → wd.Kick = wd) ∧
    (wd.cancelledCause = none →
      wd.fire.cancelledCause = some Cause.deadlineExceeded) ∧
    (0 < wd.timeout → wd.Cancel.timerArmed = false) ∧
    (wd.cancelledCause = none → wd.Cancel.cancelledCause = some Cause.nil) := by
  refine ⟨?_, ?_, ?_, ?_, ?_, ?_, ?_⟩
  · unfold newWatchdog; split <;> simp_all
  · unfold newWatchdog; split <;> simp_all
  · intro h; unfold Watchdog.Kick; rw [if_pos h]
  · intro h; unfold Watchdog.Kick; rw [if_neg (by omega)]
  · intro h; unfold Watchdog.fire Watchdog.cancelCause; rw [h]
  · intro h; unfold Watchdog.Cancel Watchdog.cancelCause
    rw [if_pos h]
    cases hc : wd.cancelledCause <;> simp [hc]
  · intro h; unfold Watchdog.Cancel Watchdog.cancelCause
    by_cases ht : 0 < wd.timeout
    · rw [if_pos ht]; simp [h]
    · rw [if_neg ht]; simp [h]

/-- Helper: every outcome of the GET stage either never issued the GET
request or records that the GET was performed with the caller's
original, unmodified client timeout. -/
theorem getStage_client_timeout (w : World) (config : Config) (ho : HeadOutcome)
    (remoteSize completed : Int) (resume : Bool) (env : Env) :
    (getStage w config ho remoteSize completed resume env).getIssued = false ∨
    (getStage w config ho remoteSize completed resume env).getClientTimeout
      = some config.HttpClient.Timeout := by
  obtain ⟨hce, ht, ar, gce, gt, oe⟩ := env
  cases gce with
  | some e => left; rfl
  | none =>
    cases gt with
    | fail e => right; rfl
    | ok resp =>
      simp only [getStage]
      split
      · right; rfl
      · cases oe with
        | some e => right; rfl
        | none => right; rfl

/-- C9: the HEAD request is performed by a client whose absolute timeout
was set to the configured inactivity timeout (0, i.e. no timeout, when
the inactivity timeout is 0), while the GET request — the `Config` being
passed by value into the probe — is performed with the caller's original
client timeout, not the inactivity timeout. -/
theorem c9_head_timeout (w : World) (config : Config) (env : Env)
    (h1 : env.headConstructErr = none) :
    (doHeadRequest config env).clientTimeout = some config.InactivityTimeout ∧
    ((DownloadWithConfig w config env).getIssued = true →
      (DownloadWithConfig w config env).getClientTimeout
        = some config.HttpClient.Timeout) := by
  obtain ⟨hce, ht, ar, gce, gt, oe⟩ := env
  subst h1
  constructor
  · cases ht with
    | fail e => rfl
    | ok h =>
      obtain ⟨cl, arr, de, ce⟩ := h
      cases de with
      | some e => rfl
      | none => cases ce with
        | some e => rfl
        | none => rfl
  · intro hgi
    cases ht with
    | fail e => simp [DownloadWithConfig, doHeadRequest, earlyOutcome] at hgi
    | ok h =>
      obtain ⟨cl, arr, de, ce⟩ := h
      cases de with
      | some e => simp [DownloadWithConfig, doHeadRequest, earlyOutcome] at hgi
      | none => cases ce with
        | some e => simp [DownloadWithConfig, doHeadRequest, earlyOutcome] at hgi
        | none =>
          cases ar with
          | some e => simp [DownloadWithConfig, doHeadRequest, earlyOutcome] at hgi
          | none =>
            simp only [DownloadWithConfig, doHeadRequest] at hgi ⊢
            split at hgi
            · simp at hgi
            · next hcond =>
              rw [if_neg hcond]
              rcases getStage_client_timeout w config _ _ _ _
                ⟨none, Transport.ok ⟨cl, arr, none, none⟩, none, gce, gt, oe⟩
                with hfalse | hok
              · rw [hfalse] at hgi; cases hgi
              · exact hok

/-- Witness for C9 on a concrete environment where both requests
succeed: the caller's client timeout is 7, the inactivity timeout 3. -/
theorem c9_head_timeout_witness :
    (doHeadRequest ⟨⟨7⟩, false, [], false, 3, 0, false⟩
      ⟨none, Transport.ok ⟨5, "", none, none⟩, none, none,
        Transport.ok ⟨200, []⟩, none⟩).clientTimeout = some 3 ∧
    ((DownloadWithConfig ⟨none⟩ ⟨⟨7⟩, false, [], false, 3, 0, false⟩
      ⟨none, Transport.ok ⟨5, "", none, none⟩, none, none,
        Transport.ok ⟨200, []⟩, none⟩).getIssued = true →
     (DownloadWithConfig ⟨none⟩ ⟨⟨7⟩, false, [], false, 3, 0, false⟩
      ⟨none, Transport.ok ⟨5, "", none, none⟩, none, none,
        Transport.ok ⟨200, []⟩, none⟩).getClientTimeout = some 7) :=
  c9_head_timeout ⟨none⟩ ⟨⟨7⟩, false, [], false, 3, 0, false⟩
    ⟨none, Transport.ok ⟨5, "", none, none⟩, none, none,
      Transport.ok ⟨200, []⟩, none⟩ rfl

/-- C2: with resume allowed, a poll callback configured, and the local
file length equal to the known remote size, `DownloadWithConfig` returns
nil, issues no GET request, and invokes the poll callback exactly once
with current = total = remote size. -/
theorem c2_skip_when_complete (w : World) (config : Config) (env : Env)
    (h : HeadResponse)
    (hres : config.DoNotResumeDownload = false)
    (hpoll : config.pollConfigured = true)
    (h1 : env.headConstructErr = none)
    (h2 : env.headTransport = Transport.ok h)
    (h3 : h.drainErr = none) (h4 : h.closeErr = none)
    (h5 : env.acceptResult = none)
    (hk : h.contentLength ≠ -1)
    (heq : localSizeOf w = h.contentLength) :
    (DownloadWithConfig w config env).result = none ∧
    (DownloadWithConfig w config env).getIssued = false ∧
    (DownloadWithConfig w config env).polls
      = [(h.contentLength, h.contentLength)] := by
  obtain ⟨hce, ht, ar, gce, gt, oe⟩ := env
  obtain ⟨cl, arr, de, ce⟩ := h
  simp only at h1 h2 h5
  subst h1 h2 h5
  simp only at h3 h4 heq
  subst h3 h4
  simp [DownloadWithConfig, doHeadRequest, hres, hpoll, heq]

/-- Witness for C2: a 3-byte local file matching a 3-byte remote. -/
theorem c2_skip_when_complete_witness :
    (DownloadWithConfig ⟨some [1, 2, 3]⟩ ⟨⟨0⟩, false, [], false, 0, 0, true⟩
      ⟨none, Transport.ok ⟨3, "", none, none⟩, none, none,
        Transport.ok ⟨200, []⟩, none⟩).result = none ∧
    (DownloadWithConfig ⟨some [1, 2, 3]⟩ ⟨⟨0⟩, false, [], false, 0, 0, true⟩
      ⟨none, Transport.ok ⟨3, "", none, none⟩, none, none,
        Transport.ok ⟨200, []⟩, none⟩).getIssued = false ∧
    (DownloadWithConfig ⟨some [1, 2, 3]⟩ ⟨⟨0⟩, false, [], false, 0, 0, true⟩
      ⟨none, Transport.ok ⟨3, "", none, none⟩, none, none,
        Transport.ok ⟨200, []⟩, none⟩).polls = [((3 : Int), (3 : Int))] :=
  c2_skip_when_complete ⟨some [1, 2, 3]⟩ ⟨⟨0⟩, false, [], false, 0, 0, true⟩
    ⟨none, Transport.ok ⟨3, "", none, none⟩, none, none,
      Transport.ok ⟨200, []⟩, none⟩ ⟨3, "", none, none⟩
    rfl rfl rfl rfl rfl rfl rfl (by decide) (by decide)

/-- C3: with the resume-disabled flag set, the transfer starts fresh on
the happy path: start offset 0, the file is opened with create+truncate,
no Range header is sent, and the final file content is independent of
whatever partial file existed locally (it is discarded). -/
theorem c3_fresh_start (w : World) (config : Config) (env : Env)
    (h : HeadResponse) (resp : GetResponse)
    (hd : config.DoNotResumeDownload = true)
    (h1 : env.headConstructErr = none)
    (h2 : env.headTransport = Transport.ok h)
    (h3 : h.drainErr = none) (h4 : h.closeErr = none)
    (h5 : env.acceptResult = none)
    (h7 : env.getConstructErr = none)
    (h8 : env.getTransport = Transport.ok resp)
    (h9 : config.DoNotErrorOnNon2xxStatusCode = true ∨
      resp.statusCode = 200 ∨ resp.statusCode = 206)
    (h10 : env.openErr = none) :
    (DownloadWithConfig w config env).startOffset = 0 ∧
    (DownloadWithConfig w config env).getRange = none ∧
    (DownloadWithConfig w config env).openMode = some OpenMode.createTruncate ∧
    (∀ w' : World,
      (DownloadWithConfig w' config env).file
        = (DownloadWithConfig w config env).file) := by
  obtain ⟨hce, ht, ar, gce, gt, oe⟩ := env
  obtain ⟨cl, arr, de, ce⟩ := h
  simp only at h1 h2 h5 h7 h8 h10
  subst h1 h2 h5 h7 h8 h10
  simp only at h3 h4
  subst h3 h4
  rcases h9 with h9 | h9 | h9 <;>
    simp [DownloadWithConfig, doHeadRequest, getStage, runTransfer, hd, h9]

/-- Witness for C3: a 2-byte stale local file, a 5-byte remote, a
successful fresh download. -/
theorem c3_fresh_start_witness :
    (DownloadWithConfig ⟨some [9, 9]⟩ ⟨⟨0⟩, true, [], false, 0, 0, false⟩
      ⟨none, Transport.ok ⟨5, "bytes", none, none⟩, none, none,
        Transport.ok ⟨200, [Ev.read ⟨[1, 2, 3, 4, 5], none,
          some ReadErr.eof⟩]⟩, none⟩).startOffset = 0 ∧
    (DownloadWithConfig ⟨some [9, 9]⟩ ⟨⟨0⟩, true, [], false, 0, 0, false⟩
      ⟨none, Transport.ok ⟨5, "bytes", none, none⟩, none, none,
        Transport.ok ⟨200, [Ev.read ⟨[1, 2, 3, 4, 5], none,
          some ReadErr.eof⟩]⟩, none⟩).getRange = none ∧
    (DownloadWithConfig ⟨some [9, 9]⟩ ⟨⟨0⟩, true, [], false, 0, 0, false⟩
      ⟨none, Transport.ok ⟨5, "bytes", none, none⟩, none, none,
        Transport.ok ⟨200, [Ev.read ⟨[1, 2, 3, 4, 5], none,
          some ReadErr.eof⟩]⟩, none⟩).openMode
      = some OpenMode.createTruncate ∧
    (∀ w' : World,
      (DownloadWithConfig w' ⟨⟨0⟩, true, [], false, 0, 0, false⟩
        ⟨none, Transport.ok ⟨5, "bytes", none, none⟩, none, none,
          Transport.ok ⟨200, [Ev.read ⟨[1, 2, 3, 4, 5], none,
            some ReadErr.eof⟩]⟩, none⟩).file
        = (DownloadWithConfig ⟨some [9, 9]⟩ ⟨⟨0⟩, true, [], false, 0, 0, false⟩
          ⟨none, Transport.ok ⟨5, "bytes", none, none⟩, none, none,
            Transport.ok ⟨200, [Ev.read ⟨[1, 2, 3, 4, 5], none,
              some ReadErr.eof⟩]⟩, none⟩).file) :=
  c3_fresh_start ⟨some [9, 9]⟩ ⟨⟨0⟩, true, [], false, 0, 0, false⟩
    ⟨none, Transport.ok ⟨5, "bytes", none, none⟩, none, none,
      Transport.ok ⟨200, [Ev.read ⟨[1, 2, 3, 4, 5], none,
        some ReadErr.eof⟩]⟩, none⟩
    ⟨5, "bytes", none, none⟩ ⟨200, [Ev.read ⟨[1, 2, 3, 4, 5], none,
      some ReadErr.eof⟩]⟩
    rfl rfl rfl rfl rfl rfl rfl rfl (Or.inr (Or.inl rfl)) rfl

/-- Classifies the errors `DownloadWithConfig` can return before it
opens the output file. -/
def isEarly : DownloadErr → Bool
  | DownloadErr.headSetup _ => true
  | DownloadErr.headTransport _ => true
  | DownloadErr.drain _ => true
  | DownloadErr.closeHead _ => true
  | DownloadErr.accept _ => true
  | DownloadErr.getSetup _ => true
  | DownloadErr.getTransport _ => true
  | DownloadErr.status _ => true
  | DownloadErr.openFile _ => false
  | DownloadErr.write _ => false
  | DownloadErr.readBody _ => false

/-- C10: when the call fails before the output file is opened (HEAD
setup or transport failure, drain or close failure, accept veto, GET
setup or transport failure, or an unexpected status), the local target
file is never opened and its content is unchanged. -/
theorem c10_early_error_frame (w : World) (config : Config) (env : Env)
    (e : DownloadErr)
    (hres : (DownloadWithConfig w config env).result = some e)
    (hearly : isEarly e = true) :
    (DownloadWithConfig w config env).file = w.file ∧
    (DownloadWithConfig w config env).openMode = none := by
  obtain ⟨hce, ht, ar, gce, gt, oe⟩ := env
  cases hce with
  | some e' => exact ⟨rfl, rfl⟩
  | none =>
    cases ht with
    | fail e' => exact ⟨rfl, rfl⟩
    | ok h =>
      obtain ⟨cl, arr, de, ce⟩ := h
      cases de with
      | some e' => exact ⟨rfl, rfl⟩
      | none =>
        cases ce with
        | some e' => exact ⟨rfl, rfl⟩
        | none =>
          cases ar with
          | some e' => exact ⟨rfl, rfl⟩
          | none =>
            simp only [DownloadWithConfig, doHeadRequest] at hres ⊢
            split at hres
            · simp at hres
            · next hcond =>
              rw [if_neg hcond]
              cases gce with
              | some e' => exact ⟨rfl, rfl⟩
              | none =>
                cases gt with
                | fail e' => exact ⟨rfl, rfl⟩
                | ok resp =>
                  simp only [getStage] at hres ⊢
                  by_cases hst : config.DoNotErrorOnNon2xxStatusCode = false ∧
                    ¬resp.statusCode = 200 ∧ ¬resp.statusCode = 206
                  · rw [if_pos hst]
                    exact ⟨rfl, rfl⟩
                  · rw [if_neg hst] at hres ⊢
                    cases oe with
                    | some e' => exact ⟨rfl, rfl⟩
                    | none =>
                      simp only [runTransfer] at hres
                      cases hlr : (copyLoop config.pollConfigured cl resp.events
                        ⟨if (!config.DoNotResumeDownload &&
                            (arr == "bytes" && !cl == -1) &&
                            decide (0 < if (!config.DoNotResumeDownload &&
                              decide (localSizeOf w < cl)) = true then
                                localSizeOf w else 0)) = true then
                            w.file.getD [] else [],
                          if (!config.DoNotResumeDownload &&
                            decide (localSizeOf w < cl)) = true then
                              localSizeOf w else 0,
                          if config.pollConfigured = true then
                            [(if (!config.DoNotResumeDownload &&
                              decide (localSizeOf w < cl)) = true then
                                localSizeOf w else 0, cl)] else []⟩).err with
                      | none => rw [hlr] at hres; simp at hres
                      | some ce' =>
                        rw [hlr] at hres
                        simp only [Option.map_some', Option.some.injEq] at hres
                        subst hres
                        cases ce' <;> simp [isEarly] at hearly

/-- Witness for C10: a HEAD transport failure leaves a 2-byte local
file untouched. -/
theorem c10_early_error_frame_witness :
    (DownloadWithConfig ⟨some [4, 5]⟩ ⟨⟨0⟩, false, [], false, 0, 0, false⟩
      ⟨none, Transport.fail 3, none, none,
        Transport.ok ⟨200, []⟩, none⟩).file = some [4, 5] ∧
    (DownloadWithConfig ⟨some [4, 5]⟩ ⟨⟨0⟩, false, [], false, 0, 0, false⟩
      ⟨none, Transport.fail 3, none, none,
        Transport.ok ⟨200, []⟩, none⟩).openMode = none :=
  c10_early_error_frame ⟨some [4, 5]⟩ ⟨⟨0⟩, false, [], false, 0, 0, false⟩
    ⟨none, Transport.fail 3, none, none, Transport.ok ⟨200, []⟩, none⟩
    (DownloadErr.headTransport 3) rfl rfl

/-- Helper: an error coming out of the copy loop is a write or body-read
error, never a server-status error. -/
theorem map_copyErr_ne_status (o : Option CopyErr) (c : Nat) :
    Option.map (fun ce => match ce with
      | CopyErr.write e => DownloadErr.write e
      | CopyErr.readFail e => DownloadErr.readBody e) o
      ≠ some (DownloadErr.status c) := by
  cases o with
  | none => simp
  | some ce => cases ce <;> simp

/-- C6: once the GET response is in hand, with the suppression flag
unset the call fails with a server-status error exactly when the status
is neither 200 nor 206; with the flag set no status code produces an
error and the transfer proceeds (the output file is opened). -/
theorem c6_status_check (w : World) (config : Config) (env : Env)
    (h : HeadResponse) (resp : GetResponse)
    (h1 : env.headConstructErr = none)
    (h2 : env.headTransport = Transport.ok h)
    (h3 : h.drainErr = none) (h4 : h.closeErr = none)
    (h5 : env.acceptResult = none)
    (hne : ¬(config.DoNotResumeDownload = false ∧
      localSizeOf w = h.contentLength))
    (h7 : env.getConstructErr = none)
    (h8 : env.getTransport = Transport.ok resp) :
    (config.DoNotErrorOnNon2xxStatusCode = false →
      ((DownloadWithConfig w config env).result
          = some (DownloadErr.status resp.statusCode)
        ↔ (resp.statusCode ≠ 200 ∧ resp.statusCode ≠ 206))) ∧
    (config.DoNotErrorOnNon2xxStatusCode = true →
      ((∀ c, (DownloadWithConfig w config env).result
          ≠ some (DownloadErr.status c)) ∧
       (env.openErr = none → (DownloadWithConfig w config env).openMode ≠ none))) := by
  obtain ⟨hce, ht, ar, gce, gt, oe⟩ := env
  obtain ⟨cl, arr, de, ce⟩ := h
  simp only at h1 h2 h5 h7 h8 hne
  subst h1 h2 h5 h7 h8
  simp only at h3 h4
  subst h3 h4
  have hb : ¬((!config.DoNotResumeDownload && (localSizeOf w == cl)) = true) := by
    simp only [Bool.and_eq_true, Bool.not_eq_true', beq_iff_eq]
    rintro ⟨hb1, hb2⟩
    exact hne ⟨hb1, hb2⟩
  simp only [DownloadWithConfig, doHeadRequest]
  rw [if_neg hb]
  simp only [getStage]
  constructor
  · intro hflag
    constructor
    · intro hres
      by_cases hst : config.DoNotErrorOnNon2xxStatusCode = false ∧
        ¬resp.statusCode = 200 ∧ ¬resp.statusCode = 206
      · exact ⟨hst.2.1, hst.2.2⟩
      · exfalso
        rw [if_neg hst] at hres
        cases oe with
        | some e' => simp [preOpenOutcome] at hres
        | none =>
          simp only [runTransfer] at hres
          exact map_copyErr_ne_status _ _ hres
    · rintro ⟨hs1, hs2⟩
      rw [if_pos ⟨hflag, hs1, hs2⟩]
      rfl
  · intro hflag
    have hst : ¬(config.DoNotErrorOnNon2xxStatusCode = false ∧
        ¬resp.statusCode = 200 ∧ ¬resp.statusCode = 206) := by
      rintro ⟨hc, -⟩
      rw [hflag] at hc
      cases hc
    rw [if_neg hst]
    constructor
    · intro c
      cases oe with
      | some e' => simp [preOpenOutcome]
      | none =>
        simp only [runTransfer]
        exact map_copyErr_ne_status _ c
    · intro hoe
      subst hoe
      simp [runTransfer]

/-- Witness for C6: with the flag unset, a 404 response on a fresh
download yields the server-status error. -/
theorem c6_status_check_witness :
    (DownloadWithConfig ⟨none⟩ ⟨⟨0⟩, false, [], false, 0, 0, false⟩
      ⟨none, Transport.ok ⟨5, "", none, none⟩, none, none,
        Transport.ok ⟨404, []⟩, none⟩).result
      = some (DownloadErr.status 404) :=
  ((c6_status_check ⟨none⟩ ⟨⟨0⟩, false, [], false, 0, 0, false⟩
    ⟨none, Transport.ok ⟨5, "", none, none⟩, none, none,
      Transport.ok ⟨404, []⟩, none⟩ ⟨5, "", none, none⟩ ⟨404, []⟩
    rfl rfl rfl rfl rfl (by decide) rfl rfl).1 rfl).mpr
    ⟨by decide, by decide⟩

/-- C7 as stated by the spec: whenever the HEAD probe receives a
response, the body is both drained and closed, on every path out of the
probe. -/
def ClaimC7 : Prop :=
  ∀ (config : Config) (env : Env) (h : HeadResponse),
    env.headConstructErr = none → env.headTransport = Transport.ok h →
    (doHeadRequest config env).drainAttempted = true ∧
    (doHeadRequest config env).closeCalled = true

/-- C7 is false on the code: when draining the HEAD body fails, the
probe returns the drain error without ever calling `Body.Close()`. -/
theorem c7_counterexample : ¬ ClaimC7 := by
  intro hcl
  have hinst := hcl ⟨⟨0⟩, false, [], false, 0, 0, false⟩
    ⟨none, Transport.ok ⟨5, "", some 7, none⟩, none, none,
      Transport.ok ⟨200, []⟩, none⟩
    ⟨5, "", some 7, none⟩ rfl rfl
  exact absurd hinst.2 (by decide)

/-- C7 amended: whenever the probe receives a response the body drain is
attempted, and whenever draining succeeds the body is closed — including
when `Close` itself errors, and including when the accept predicate
later vetoes the download (the veto happens only after the probe has
already drained and closed the body). On a drain failure the error is
returned without closing. -/
theorem c7_head_body_close_amended (config : Config) (env : Env)
    (h : HeadResponse)
    (h1 : env.headConstructErr = none)
    (h2 : env.headTransport = Transport.ok h) :
    (doHeadRequest config env).drainAttempted = true ∧
    (h.drainErr = none → (doHeadRequest config env).closeCalled = true) ∧
    (∀ (w : World) (e : Nat), h.drainErr = none → h.closeErr = none →
      env.acceptResult = some e →
      (DownloadWithConfig w config env).result = some (DownloadErr.accept e) ∧
      (DownloadWithConfig w config env).headCloseCalled = true) := by
  obtain ⟨hce, ht, ar, gce, gt, oe⟩ := env
  simp only at h1 h2
  subst h1 h2
  obtain ⟨cl, arr, de, ce⟩ := h
  simp only
  cases de with
  | some e0 =>
    refine ⟨rfl, ?_, ?_⟩
    · intro hd; simp at hd
    · intro w e hd; simp at hd
  | none =>
    cases ce with
    | some e0 =>
      refine ⟨rfl, fun _ => rfl, ?_⟩
      intro w e _ hc; simp at hc
    | none =>
      refine ⟨rfl, fun _ => rfl, ?_⟩
      intro w e _ _ hacc
      subst hacc
      exact ⟨rfl, rfl⟩

/-- Witness for the amended C7: a successful probe followed by an
accept-predicate veto, with the body drained and closed. -/
theorem c7_head_body_close_amended_witness :
    (doHeadRequest ⟨⟨0⟩, false, [], false, 0, 0, false⟩
      ⟨none, Transport.ok ⟨5, "", none, none⟩, some 42, none,
        Transport.ok ⟨200, []⟩, none⟩).drainAttempted = true ∧
    (doHeadRequest ⟨⟨0⟩, false, [], false, 0, 0, false⟩
      ⟨none, Transport.ok ⟨5, "", none, none⟩, some 42, none,
        Transport.ok ⟨200, []⟩, none⟩).closeCalled = true ∧
    (DownloadWithConfig ⟨none⟩ ⟨⟨0⟩, false, [], false, 0, 0, false⟩
      ⟨none, Transport.ok ⟨5, "", none, none⟩, some 42, none,
        Transport.ok ⟨200, []⟩, none⟩).result
      = some (DownloadErr.accept 42) := by
  have hth := c7_head_body_close_amended ⟨⟨0⟩, false, [], false, 0, 0, false⟩
    ⟨none, Transport.ok ⟨5, "", none, none⟩, some 42, none,
      Transport.ok ⟨200, []⟩, none⟩
    ⟨5, "", none, none⟩ rfl rfl
  exact ⟨hth.1, hth.2.1 rfl, (hth.2.2 ⟨none⟩ 42 rfl rfl rfl).1⟩

/-- An event the copy loop passes through without stopping: a tick, or a
read that returns no error and whose write (if any data arrived)
succeeds. -/
def stepOk (e : Ev) : Bool :=
  match e with
  | Ev.tick => true
  | Ev.read r =>
      (decide (r.data = []) || decide (r.writeErr = none)) &&
        decide (r.readErr = none)

/-- The error with which the copy loop stops on a given read event, as
the loop computes it: a failing write takes precedence (the loop checks
`n > 0` first), otherwise a read failure. -/
def failErrOf (r : ReadEvent) : Option CopyErr :=
  if r.data = [] then
    match r.readErr with
    | some (ReadErr.fail e) => some (CopyErr.readFail e)
    | _ => none
  else
    match r.writeErr with
    | some e => some (CopyErr.write e)
    | none =>
      match r.readErr with
      | some (ReadErr.fail e) => some (CopyErr.readFail e)
      | _ => none

/-- C4: when the copy loop hits a failing event (read error, write
error, or a cancellation surfacing as a read error), it returns that
error immediately — events after the failure are never consumed, so
there is no retry — and the output file keeps everything written before
the failure: the loop only ever appends, never deletes, truncates or
rolls back. -/
theorem c4_copy_loop_failure_frame (pollOn : Bool) (sz : Int)
    (pre post : List Ev) (r : ReadEvent) (ce : CopyErr) (st : LoopState)
    (hpre : ∀ x ∈ pre, stepOk x = true)
    (hfail : failErrOf r = some ce) :
    copyLoop pollOn sz (pre ++ Ev.read r :: post) st
      = copyLoop pollOn sz (pre ++ [Ev.read r]) st ∧
    (copyLoop pollOn sz (pre ++ Ev.read r :: post) st).err = some ce ∧
    ∃ suffix, (copyLoop pollOn sz (pre ++ Ev.read r :: post) st).st.file
      = st.file ++ suffix := by
  induction pre generalizing st with
  | nil =>
    simp only [List.nil_append]
    by_cases hdata : r.data = []
    · cases hre : r.readErr with
      | none => simp [failErrOf, hdata, hre] at hfail
      | some re =>
        cases re with
        | eof => simp [failErrOf, hdata, hre] at hfail
        | fail e =>
          simp only [failErrOf, if_pos hdata, hre, Option.some.injEq] at hfail
          subst hfail
          exact ⟨by simp [copyLoop, hdata, hre], by simp [copyLoop, hdata, hre],
            [], by simp [copyLoop, hdata, hre]⟩
    · cases hw : r.writeErr with
      | some e =>
        simp only [failErrOf, if_neg hdata, hw, Option.some.injEq] at hfail
        subst hfail
        exact ⟨by simp [copyLoop, hdata, hw], by simp [copyLoop, hdata, hw],
          [], by simp [copyLoop, hdata, hw]⟩
      | none =>
        cases hre : r.readErr with
        | none => simp [failErrOf, hdata, hw, hre] at hfail
        | some re =>
          cases re with
          | eof => simp [failErrOf, hdata, hw, hre] at hfail
          | fail e =>
            simp only [failErrOf, if_neg hdata, hw, hre,
              Option.some.injEq] at hfail
            subst hfail
            exact ⟨by simp [copyLoop, hdata, hw, hre],
              by simp [copyLoop, hdata, hw, hre], r.data,
              by simp [copyLoop, hdata, hw, hre]⟩
  | cons x pre ih =>
    have hx : stepOk x = true := hpre x (List.mem_cons_self x pre)
    have hpre' : ∀ y ∈ pre, stepOk y = true :=
      fun y hy => hpre y (List.mem_cons_of_mem x hy)
    cases x with
    | tick =>
      cases pollOn with
      | true =>
        have step : ∀ l, copyLoop true sz (Ev.tick :: l) st
            = copyLoop true sz l
              ⟨st.file, st.completed, st.polls ++ [(st.completed, sz)]⟩ := by
          intro l; simp [copyLoop]
        obtain ⟨e1, e2, suf, e3⟩ :=
          ih ⟨st.file, st.completed, st.polls ++ [(st.completed, sz)]⟩ hpre'
        refine ⟨?_, ?_, suf, ?_⟩
        · simp only [List.cons_append, step]; exact e1
        · simp only [List.cons_append, step]; exact e2
        · simp only [List.cons_append, step]; exact e3
      | false =>
        have step : ∀ l, copyLoop false sz (Ev.tick :: l) st
            = copyLoop false sz l st := by
          intro l; simp [copyLoop]
        obtain ⟨e1, e2, suf, e3⟩ := ih st hpre'
        refine ⟨?_, ?_, suf, ?_⟩
        · simp only [List.cons_append, step]; exact e1
        · simp only [List.cons_append, step]; exact e2
        · simp only [List.cons_append, step]; exact e3
    | read rx =>
      simp only [stepOk, Bool.and_eq_true, Bool.or_eq_true,
        decide_eq_true_eq] at hx
      obtain ⟨hor, hre⟩ := hx
      by_cases hdata : rx.data = []
      · have step : ∀ l, copyLoop pollOn sz (Ev.read rx :: l) st
            = copyLoop pollOn sz l st := by
          intro l; simp [copyLoop, hdata, hre]
        obtain ⟨e1, e2, suf, e3⟩ := ih st hpre'
        refine ⟨?_, ?_, suf, ?_⟩
        · simp only [List.cons_append, step]; exact e1
        · simp only [List.cons_append, step]; exact e2
        · simp only [List.cons_append, step]; exact e3
      · have hw : rx.writeErr = none := by
          cases hor with
          | inl hl => exact absurd hl hdata
          | inr hr => exact hr
        have step : ∀ l, copyLoop pollOn sz (Ev.read rx :: l) st
            = copyLoop pollOn sz l
              ⟨st.file ++ rx.data, st.completed + (rx.data.length : Int),
                st.polls⟩ := by
          intro l; simp [copyLoop, hdata, hw, hre]
        obtain ⟨e1, e2, suf, e3⟩ := ih
          ⟨st.file ++ rx.data, st.completed + (rx.data.length : Int),
            st.polls⟩ hpre'
        refine ⟨?_, ?_, rx.data ++ suf, ?_⟩
        · simp only [List.cons_append, step]; exact e1
        · simp only [List.cons_append, step]; exact e2
        · simp only [List.cons_append, step]; rw [e3]; simp

/-- Witness for C4: after one good chunk and one tick, a read failure
stops the loop at once; the chunk written before the failure (and the
one delivered together with the failing read) stays in the file. -/
theorem c4_copy_loop_failure_frame_witness :
    copyLoop true 10
        [Ev.read ⟨[1], none, none⟩, Ev.tick,
          Ev.read ⟨[2], none, some (ReadErr.fail 9)⟩,
          Ev.read ⟨[3], none, some ReadErr.eof⟩] ⟨[5], 1, []⟩
      = copyLoop true 10
        [Ev.read ⟨[1], none, none⟩, Ev.tick,
          Ev.read ⟨[2], none, some (ReadErr.fail 9)⟩] ⟨[5], 1, []⟩ ∧
    (copyLoop true 10
        [Ev.read ⟨[1], none, none⟩, Ev.tick,
          Ev.read ⟨[2], none, some (ReadErr.fail 9)⟩,
          Ev.read ⟨[3], none, some ReadErr.eof⟩] ⟨[5], 1, []⟩).err
      = some (CopyErr.readFail 9) ∧
    ∃ suffix,
      (copyLoop true 10
        [Ev.read ⟨[1], none, none⟩, Ev.tick,
          Ev.read ⟨[2], none, some (ReadErr.fail 9)⟩,
          Ev.read ⟨[3], none, some ReadErr.eof⟩] ⟨[5], 1, []⟩).st.file
        = [5] ++ suffix :=
  c4_copy_loop_failure_frame true 10
    [Ev.read ⟨[1], none, none⟩, Ev.tick]
    [Ev.read ⟨[3], none, some ReadErr.eof⟩]
    ⟨[2], none, some (ReadErr.fail 9)⟩ (CopyErr.readFail 9) ⟨[5], 1, []⟩
    (by decide) (by decide)

/-- The progress values of a poll trace are non-decreasing. -/
def pollsMono (ps : List (Int × Int)) : Prop :=
  List.Chain' (fun a b => a.1 ≤ b.1) ps

/-- Helper: the copy loop only appends poll samples, keeps the trace
monotone with its last sample at most the current counter, and never
decreases the counter. -/
theorem copyLoop_polls_inv (pollOn : Bool) (sz : Int) (evs : List Ev)
    (st : LoopState)
    (hmono : pollsMono st.polls)
    (hlast : ∀ p ∈ st.polls.getLast?, p.1 ≤ st.completed) :
    pollsMono (copyLoop pollOn sz evs st).st.polls ∧
    (∀ p ∈ (copyLoop pollOn sz evs st).st.polls.getLast?,
      p.1 ≤ (copyLoop pollOn sz evs st).st.completed) ∧
    st.completed ≤ (copyLoop pollOn sz evs st).st.completed ∧
    ∃ suf, (copyLoop pollOn sz evs st).st.polls = st.polls ++ suf := by
  induction evs generalizing st with
  | nil => exact ⟨hmono, hlast, le_refl _, [], by simp [copyLoop]⟩
  | cons x rest ih =>
    cases x with
    | tick =>
      cases pollOn with
      | true =>
        have step : copyLoop true sz (Ev.tick :: rest) st
            = copyLoop true sz rest
              ⟨st.file, st.completed, st.polls ++ [(st.completed, sz)]⟩ := by
          simp [copyLoop]
        have hmono' : pollsMono (st.polls ++ [(st.completed, sz)]) := by
          rw [pollsMono, List.chain'_append]
          refine ⟨hmono, List.chain'_singleton _, ?_⟩
          intro p hp q hq
          simp only [List.head?_cons, Option.mem_def, Option.some.injEq] at hq
          subst hq
          exact hlast p hp
        have hlast' : ∀ p ∈ (st.polls ++ [(st.completed, sz)]).getLast?,
            p.1 ≤ st.completed := by
          intro p hp
          rw [List.getLast?_concat] at hp
          simp only [Option.mem_def, Option.some.injEq] at hp
          subst hp
          exact le_refl _
        obtain ⟨m, l, c, suf, hsuf⟩ :=
          ih ⟨st.file, st.completed, st.polls ++ [(st.completed, sz)]⟩
            hmono' hlast'
        rw [step]
        refine ⟨m, l, c, [(st.completed, sz)] ++ suf, ?_⟩
        rw [hsuf]; simp
      | false =>
        have step : copyLoop false sz (Ev.tick :: rest) st
            = copyLoop false sz rest st := by
          simp [copyLoop]
        rw [step]
        exact ih st hmono hlast
    | read r =>
      by_cases hdata : r.data = []
      · cases hre : r.readErr with
        | none =>
          have step : copyLoop pollOn sz (Ev.read r :: rest) st
              = copyLoop pollOn sz rest st := by
            simp [copyLoop, hdata, hre]
          rw [step]
          exact ih st hmono hlast
        | some re =>
          cases re with
          | eof =>
            have step : copyLoop pollOn sz (Ev.read r :: rest) st
                = ⟨st, none⟩ := by
              simp [copyLoop, hdata, hre]
            rw [step]
            exact ⟨hmono, hlast, le_refl _, [], by simp⟩
          | fail e =>
            have step : copyLoop pollOn sz (Ev.read r :: rest) st
                = ⟨st, some (CopyErr.readFail e)⟩ := by
              simp [copyLoop, hdata, hre]
            rw [step]
            exact ⟨hmono, hlast, le_refl _, [], by simp⟩
      · cases hw : r.writeErr with
        | some e =>
          have step : copyLoop pollOn sz (Ev.read r :: rest) st
              = ⟨st, some (CopyErr.write e)⟩ := by
            simp [copyLoop, hdata, hw]
          rw [step]
          exact ⟨hmono, hlast, le_refl _, [], by simp⟩
        | none =>
          have hlen : (0 : Int) ≤ (r.data.length : Int) := Int.ofNat_nonneg _
          have hlast' : ∀ p ∈ st.polls.getLast?,
              p.1 ≤ st.completed + (r.data.length : Int) := by
            intro p hp
            exact le_trans (hlast p hp) (by omega)
          cases hre : r.readErr with
          | none =>
            have step : copyLoop pollOn sz (Ev.read r :: rest) st
                = copyLoop pollOn sz rest
                  ⟨st.file ++ r.data, st.completed + (r.data.length : Int),
                    st.polls⟩ := by
              simp [copyLoop, hdata, hw, hre]
            rw [step]
            obtain ⟨m, l, c, suf, hsuf⟩ :=
              ih ⟨st.file ++ r.data, st.completed + (r.data.length : Int),
                st.polls⟩ hmono hlast'
            exact ⟨m, l, le_trans (le_add_of_nonneg_right hlen) c, suf, hsuf⟩
          | some re =>
            cases re with
            | eof =>
              have step : copyLoop pollOn sz (Ev.read r :: rest) st
                  = ⟨⟨st.file ++ r.data,
                      st.completed + (r.data.length : Int), st.polls⟩,
                    none⟩ := by
                simp [copyLoop, hdata, hw, hre]
              rw [step]
              exact ⟨hmono, hlast', le_add_of_nonneg_right hlen, [], by simp⟩
            | fail e =>
              have step : copyLoop pollOn sz (Ev.read r :: rest) st
                  = ⟨⟨st.file ++ r.data,
                      st.completed + (r.data.length : Int), st.polls⟩,
                    some (CopyErr.readFail e)⟩ := by
                simp [copyLoop, hdata, hw, hre]
              rw [step]
              exact ⟨hmono, hlast', le_add_of_nonneg_right hlen, [], by simp⟩

/-- Helper: the full poll trace of a transfer — initial sample, loop
samples, final sample — is monotone, starts at the start offset and
ends at the final counter value. -/
theorem finalAssembly_polls (sz c0 : Int) (evs : List Ev) (F : List Nat) :
    pollsMono ((copyLoop true sz evs ⟨F, c0, [(c0, sz)]⟩).st.polls
      ++ [((copyLoop true sz evs ⟨F, c0, [(c0, sz)]⟩).st.completed, sz)]) ∧
    ((copyLoop true sz evs ⟨F, c0, [(c0, sz)]⟩).st.polls
      ++ [((copyLoop true sz evs ⟨F, c0, [(c0, sz)]⟩).st.completed, sz)]).head?
      = some (c0, sz) ∧
    ((copyLoop true sz evs ⟨F, c0, [(c0, sz)]⟩).st.polls
      ++ [((copyLoop true sz evs ⟨F, c0, [(c0, sz)]⟩).st.completed,
        sz)]).getLast?
      = some ((copyLoop true sz evs ⟨F, c0, [(c0, sz)]⟩).st.completed, sz) := by
  obtain ⟨m, l, c, suf, hsuf⟩ := copyLoop_polls_inv true sz evs ⟨F, c0, [(c0, sz)]⟩
    (List.chain'_singleton _)
    (by intro p hp; simp at hp; subst hp; exact le_refl _)
  refine ⟨?_, ?_, by rw [List.getLast?_concat]⟩
  · rw [pollsMono, List.chain'_append]
    refine ⟨m, List.chain'_singleton _, ?_⟩
    intro x hx y hy
    simp only [List.head?_cons, Option.mem_def, Option.some.injEq] at hy
    subst hy
    exact l x hx
  · rw [hsuf]
    simp

/-- C5: whenever a poll callback is configured and at least one poll
invocation happened, the sequence of `current` values reported is
monotonically non-decreasing, its first element is the start offset,
and its last element is the final completed count (the final invocation
is made on every outcome of the transfer). -/
theorem c5_polls_monotone (w : World) (config : Config) (env : Env)
    (hpoll : config.pollConfigured = true)
    (hne : (DownloadWithConfig w config env).polls ≠ []) :
    pollsMono (DownloadWithConfig w config env).polls ∧
    (∃ t, (DownloadWithConfig w config env).polls.head?
      = some ((DownloadWithConfig w config env).startOffset, t)) ∧
    (∃ t, (DownloadWithConfig w config env).polls.getLast?
      = some ((DownloadWithConfig w config env).finalCompleted, t)) := by
  obtain ⟨hce, ht, ar, gce, gt, oe⟩ := env
  cases hce with
  | some e' => exact absurd rfl hne
  | none =>
    cases ht with
    | fail e' => exact absurd rfl hne
    | ok h =>
      obtain ⟨cl, arr, de, ce⟩ := h
      cases de with
      | some e' => exact absurd rfl hne
      | none =>
        cases ce with
        | some e' => exact absurd rfl hne
        | none =>
          cases ar with
          | some e' => exact absurd rfl hne
          | none =>
            simp only [DownloadWithConfig, doHeadRequest] at hne ⊢
            by_cases hskip :
              (!config.DoNotResumeDownload && (localSizeOf w == cl)) = true
            · rw [if_pos hskip]
              refine ⟨?_, ⟨cl, ?_⟩, ⟨cl, ?_⟩⟩ <;>
                simp [hpoll, pollsMono]
            · rw [if_neg hskip] at hne ⊢
              cases gce with
              | some e' => exact absurd rfl hne
              | none =>
                cases gt with
                | fail e' => exact absurd rfl hne
                | ok resp =>
                  simp only [getStage] at hne ⊢
                  by_cases hst : config.DoNotErrorOnNon2xxStatusCode = false ∧
                    ¬resp.statusCode = 200 ∧ ¬resp.statusCode = 206
                  · rw [if_pos hst] at hne ⊢
                    exact absurd rfl hne
                  · rw [if_neg hst] at hne ⊢
                    cases oe with
                    | some e' => exact absurd rfl hne
                    | none =>
                      simp only [runTransfer, hpoll, if_true]
                      exact ⟨(finalAssembly_polls cl _ resp.events _).1,
                        ⟨cl, (finalAssembly_polls cl _ resp.events _).2.1⟩,
                        ⟨cl, (finalAssembly_polls cl _ resp.events _).2.2⟩⟩

/-- Witness for C5: a resumable download delivering two chunks with a
tick in between produces the trace [(0,3), (2,3), (3,3)]. -/
theorem c5_polls_monotone_witness :
    pollsMono (DownloadWithConfig ⟨none⟩ ⟨⟨0⟩, false, [], false, 0, 0, true⟩
      ⟨none, Transport.ok ⟨3, "bytes", none, none⟩, none, none,
        Transport.ok ⟨200, [Ev.read ⟨[1, 2], none, none⟩, Ev.tick,
          Ev.read ⟨[3], none, some ReadErr.eof⟩]⟩, none⟩).polls ∧
    (∃ t, (DownloadWithConfig ⟨none⟩ ⟨⟨0⟩, false, [], false, 0, 0, true⟩
      ⟨none, Transport.ok ⟨3, "bytes", none, none⟩, none, none,
        Transport.ok ⟨200, [Ev.read ⟨[1, 2], none, none⟩, Ev.tick,
          Ev.read ⟨[3], none, some ReadErr.eof⟩]⟩, none⟩).polls.head?
      = some ((DownloadWithConfig ⟨none⟩ ⟨⟨0⟩, false, [], false, 0, 0, true⟩
        ⟨none, Transport.ok ⟨3, "bytes", none, none⟩, none, none,
          Transport.ok ⟨200, [Ev.read ⟨[1, 2], none, none⟩, Ev.tick,
            Ev.read ⟨[3], none, some ReadErr.eof⟩]⟩, none⟩).startOffset, t)) ∧
    (∃ t, (DownloadWithConfig ⟨none⟩ ⟨⟨0⟩, false, [], false, 0, 0, true⟩
      ⟨none, Transport.ok ⟨3, "bytes", none, none⟩, none, none,
        Transport.ok ⟨200, [Ev.read ⟨[1, 2], none, none⟩, Ev.tick,
          Ev.read ⟨[3], none, some ReadErr.eof⟩]⟩, none⟩).polls.getLast?
      = some ((DownloadWithConfig ⟨none⟩ ⟨⟨0⟩, false, [], false, 0, 0, true⟩
        ⟨none, Transport.ok ⟨3, "bytes", none, none⟩, none, none,
          Transport.ok ⟨200, [Ev.read ⟨[1, 2], none, none⟩, Ev.tick,
            Ev.read ⟨[3], none, some ReadErr.eof⟩]⟩,
          none⟩).finalCompleted, t)) :=
  c5_polls_monotone ⟨none⟩ ⟨⟨0⟩, false, [], false, 0, 0, true⟩
    ⟨none, Transport.ok ⟨3, "bytes", none, none⟩, none, none,
      Transport.ok ⟨200, [Ev.read ⟨[1, 2], none, none⟩, Ev.tick,
        Ev.read ⟨[3], none, some ReadErr.eof⟩]⟩, none⟩
    rfl (by decide)

/-- The side conditions under which the call reaches the transfer
phase: resume not disabled, HEAD succeeds (construction, transport,
drain, close), no accept veto, GET succeeds, acceptable status, file
opens. -/
def ResumeHappyPath (w : World) (config : Config) (env : Env)
    (h : HeadResponse) (resp : GetResponse) : Prop :=
  config.DoNotResumeDownload = false ∧
  env.headConstructErr = none ∧ env.headTransport = Transport.ok h ∧
  h.drainErr = none ∧ h.closeErr = none ∧ env.acceptResult = none ∧
  env.getConstructErr = none ∧ env.getTransport = Transport.ok resp ∧
  (config.DoNotErrorOnNon2xxStatusCode = true ∨ resp.statusCode = 200 ∨
    resp.statusCode = 206) ∧
  env.openErr = none

/-- C1 as stated by the spec: when resume is allowed, the server
advertises byte-range support, and either the local length is below the
known remote size or the remote size is unknown, the transfer resumes —
start offset = local length, append mode, `Range: bytes=<local>-`. -/
def ClaimC1 (w : World) (config : Config) (env : Env) (h : HeadResponse)
    (resp : GetResponse) : Prop :=
  ResumeHappyPath w config env h resp →
  h.acceptRanges = "bytes" →
  (localSizeOf w < h.contentLength ∨ h.contentLength = -1) →
  (DownloadWithConfig w config env).startOffset = localSizeOf w ∧
  (DownloadWithConfig w config env).openMode = some OpenMode.append ∧
  (DownloadWithConfig w config env).getRange
    = some ("bytes=" ++ toString (localSizeOf w) ++ "-")

/-- C1 is false on the code when the remote size is unknown: with a
3-byte local file, `Accept-Ranges: bytes` but `Content-Length` absent
(-1), the engine starts fresh — offset 0, create+truncate, no Range
header — because `serverCanResume` requires a known size and `completed`
stays 0 (`localSize < -1` is false). -/
theorem c1_counterexample :
    ¬ ClaimC1 ⟨some [1, 2, 3]⟩ ⟨⟨0⟩, false, [], false, 0, 0, false⟩
      ⟨none, Transport.ok ⟨-1, "bytes", none, none⟩, none, none,
        Transport.ok ⟨200, [Ev.read ⟨[7], none, some ReadErr.eof⟩]⟩, none⟩
      ⟨-1, "bytes", none, none⟩
      ⟨200, [Ev.read ⟨[7], none, some ReadErr.eof⟩]⟩ := by
  intro hcl
  have hinst := hcl
    ⟨rfl, rfl, rfl, rfl, rfl, rfl, rfl, rfl, Or.inr (Or.inl rfl), rfl⟩
    rfl (Or.inr rfl)
  exact absurd hinst.1 (by decide)

/-- C1 amended: when resume is allowed, the server is resume-capable in
the code's sense (`Accept-Ranges: bytes` and a known remote size), and
the local length is positive and below the remote size, the transfer
resumes: start offset = local length, append mode, `Range:
bytes=<local>-`. -/
theorem c1_resume_amended (w : World) (config : Config) (env : Env)
    (h : HeadResponse) (resp : GetResponse)
    (hp : ResumeHappyPath w config env h resp)
    (hsr : h.acceptRanges = "bytes")
    (hk : h.contentLength ≠ -1)
    (h0 : 0 < localSizeOf w)
    (hlt : localSizeOf w < h.contentLength) :
    (DownloadWithConfig w config env).startOffset = localSizeOf w ∧
    (DownloadWithConfig w config env).openMode = some OpenMode.append ∧
    (DownloadWithConfig w config env).getRange
      = some ("bytes=" ++ toString (localSizeOf w) ++ "-") := by
  obtain ⟨hres, h1, h2, h3, h4, h5, h7, h8, h9, h10⟩ := hp
  obtain ⟨hce, ht, ar, gce, gt, oe⟩ := env
  obtain ⟨cl, arr, de, ce⟩ := h
  simp only at h1 h2 h5 h7 h8 h10 hsr hk hlt
  subst h1 h2 h5 h7 h8 h10
  simp only at h3 h4
  subst h3 h4
  subst hsr
  have hneq : ¬(localSizeOf w = cl) := ne_of_lt hlt
  have hb : ¬((!config.DoNotResumeDownload && (localSizeOf w == cl)) = true) := by
    simp [hres, hneq]
  simp only [DownloadWithConfig, doHeadRequest]
  rw [if_neg hb]
  rcases h9 with h9 | h9 | h9 <;>
    simp [getStage, runTransfer, hres, hlt, h0, hk, h9, hneq]

/-- Witness for the amended C1: a 3-byte local file, an 8-byte remote
with range support, a 206 response — the call resumes with
`Range: bytes=3-` in append mode. -/
theorem c1_resume_amended_witness :
    (DownloadWithConfig ⟨some [9, 9, 9]⟩ ⟨⟨0⟩, false, [], false, 0, 0, false⟩
      ⟨none, Transport.ok ⟨8, "bytes", none, none⟩, none, none,
        Transport.ok ⟨206, [Ev.read ⟨[4, 5, 6, 7, 8], none,
          some ReadErr.eof⟩]⟩, none⟩).startOffset
      = localSizeOf ⟨some [9, 9, 9]⟩ ∧
    (DownloadWithConfig ⟨some [9, 9, 9]⟩ ⟨⟨0⟩, false, [], false, 0, 0, false⟩
      ⟨none, Transport.ok ⟨8, "bytes", none, none⟩, none, none,
        Transport.ok ⟨206, [Ev.read ⟨[4, 5, 6, 7, 8], none,
          some ReadErr.eof⟩]⟩, none⟩).openMode = some OpenMode.append ∧
    (DownloadWithConfig ⟨some [9, 9, 9]⟩ ⟨⟨0⟩, false, [], false, 0, 0, false⟩
      ⟨none, Transport.ok ⟨8, "bytes", none, none⟩, none, none,
        Transport.ok ⟨206, [Ev.read ⟨[4, 5, 6, 7, 8], none,
          some ReadErr.eof⟩]⟩, none⟩).getRange
      = some ("bytes=" ++ toString (localSizeOf ⟨some [9, 9, 9]⟩) ++ "-") :=
  c1_resume_amended ⟨some [9, 9, 9]⟩ ⟨⟨0⟩, false, [], false, 0, 0, false⟩
    ⟨none, Transport.ok ⟨8, "bytes", none, none⟩, none, none,
      Transport.ok ⟨206, [Ev.read ⟨[4, 5, 6, 7, 8], none,
        some ReadErr.eof⟩]⟩, none⟩
    ⟨8, "bytes", none, none⟩
    ⟨206, [Ev.read ⟨[4, 5, 6, 7, 8], none, some ReadErr.eof⟩]⟩
    ⟨rfl, rfl, rfl, rfl, rfl, rfl, rfl, rfl, Or.inr (Or.inr rfl), rfl⟩
    rfl (by decide) (by decide) (by decide)

/-- Witness for C8 at a concrete armed watchdog with timeout 5. -/
theorem c8_watchdog_witness :
    (newWatchdog 5).timerExists = true ∧
    Watchdog.Kick ⟨true, true, 2, 5, none⟩ = ⟨true, true, 5, 5, none⟩ ∧
    (Watchdog.fire ⟨true, true, 5, 5, none⟩).cancelledCause
      = some Cause.deadlineExceeded ∧
    (Watchdog.Cancel ⟨true, true, 5, 5, none⟩).timerArmed = false ∧
    (Watchdog.Cancel ⟨true, true, 5, 5, none⟩).cancelledCause = some Cause.nil := by
  have h5 := c8_watchdog 5 ⟨true, true, 2, 5, none⟩
  have h5' := c8_watchdog 5 ⟨true, true, 5, 5, none⟩
  exact ⟨h5.1.mpr (by decide), h5.2.2.1 (by decide),
    h5'.2.2.2.2.1 rfl, h5'.2.2.2.2.2.1 (by decide), h5'.2.2.2.2.2.2 rfl⟩

end Downloader
